import Mathlib

/-!
# Verification of the arcanite deterministic assembly layer

Shallow embedding of `src/arcanite/core/deck.py`, `src/arcanite/core/spread.py`
and `src/arcanite/reading/assembly.py`.  Card data files are JSON, so card data
is modelled as a JSON-like value type; Python `dict.get` calls that would raise
`AttributeError` on non-dict values are modelled by `Except`-valued lookups.
-/

set_option autoImplicit false

namespace Arcanite

/-- JSON-like values, modelling the Python `Any` data loaded by `json.load`
in `TarotDeck.load`.  Objects are association lists (Python dicts have unique
keys and preserve insertion order; lookup returns the first match). -/
inductive JValue where
  | vNull : JValue
  | vBool : Bool → JValue
  | vNum : Int → JValue
  | vStr : String → JValue
  | vArr : List JValue → JValue
  | vObj : List (String × JValue) → JValue

/-- First-match lookup in an association list, modelling Python `d[k]` /
`k in d` on a dict (keys are unique in a real dict, so first match is exact). -/
def jLookup : List (String × JValue) → String → Option JValue
  | [], _ => none
  | (k, v) :: rest, key => if k == key then some v else jLookup rest key

/-- Python `d.get(key, default)` on a value known to be a dict. -/
def jLookupD (fs : List (String × JValue)) (key : String) (d : JValue) : JValue :=
  (jLookup fs key).getD d

/-- Python exceptions that the embedded code can raise. -/
inductive PyError where
  | keyErrorCard : String → PyError
  | keyErrorSpread : String → PyError
  | indexError : PyError
  | valueErrorQuestionType : String → PyError
  | attributeError : PyError
deriving DecidableEq, Repr

/-- Python `v.get(key, default)`: succeeds when `v` is a dict, raises
`AttributeError` otherwise. -/
def dictGetE (v : JValue) (key : String) (d : JValue) : Except PyError JValue :=
  match v with
  | .vObj fs => .ok (jLookupD fs key d)
  | _ => .error .attributeError

/-- Python truthiness of a JSON value (`if interpretation:` etc.). -/
def jTruthy : JValue → Bool
  | .vNull => false
  | .vBool b => b
  | .vNum n => !(n == 0)
  | .vStr s => !(s == "")
  | .vArr xs => !xs.isEmpty
  | .vObj fs => !fs.isEmpty

/-- Whether a JSON value is a dict (`isinstance(current, dict)`). -/
def jIsObj : JValue → Bool
  | .vObj _ => true
  | _ => false

/-- Character-list lexicographic order by code point, modelling Python `<`
on `str`. -/
def charsLt : List Char → List Char → Bool
  | [], [] => false
  | [], _ :: _ => true
  | _ :: _, [] => false
  | a :: as, b :: bs =>
    if a.toNat < b.toNat then true
    else if a.toNat = b.toNat then charsLt as bs
    else false

/-- Python `s < t` on strings. -/
def pyStrLt (s t : String) : Bool := charsLt s.data t.data

/-- True when the first list is an initial run of the second. -/
def charsStartWith : List Char → List Char → Bool
  | [], _ => true
  | _ :: _, [] => false
  | p :: ps, c :: cs => p == c && charsStartWith ps cs

/-- Python `s.startswith(pre)`. -/
def pyStartsWith (s pre : String) : Bool := charsStartWith pre.data s.data

/-- Python `s in l` for a collection of strings. -/
def pyMem (s : String) : List String → Bool
  | [] => false
  | a :: as => (a == s) || pyMem s as

/-- Helper for `pySplitDot`: accumulates the current segment (reversed). -/
def splitDotAux : List Char → List Char → List String
  | [], acc => [String.mk acc.reverse]
  | c :: rest, acc =>
    if c == '.' then String.mk acc.reverse :: splitDotAux rest []
    else splitDotAux rest (c :: acc)

/-- Python `rag_mapping.split(".")`: split on each dot, keeping empty
segments (`"".split(".") == [""]`). -/
def pySplitDot (s : String) : List String := splitDotAux s.data []

/-- Python `a or b` for strings: `a` when non-empty, else `b`. -/
def pyOrStr (a b : String) : String := if a == "" then b else a

/-- Model of the `Orientation` enum from `core/models.py`. -/
inductive Orientation where
  | upright : Orientation
  | reversed : Orientation
deriving DecidableEq, Repr

/-- Model of `Orientation.value`. -/
def orientationValue : Orientation → String
  | .upright => "upright"
  | .reversed => "reversed"

/-- Model of the `QuestionType` enum from `core/models.py`. -/
inductive QuestionType where
  | love : QuestionType
  | career : QuestionType
  | spiritual : QuestionType
  | financial : QuestionType
  | health : QuestionType
  | general : QuestionType
deriving DecidableEq, Repr

/-- Model of `QuestionType.value`. -/
def questionTypeValue : QuestionType → String
  | .love => "love"
  | .career => "career"
  | .spiritual => "spiritual"
  | .financial => "financial"
  | .health => "health"
  | .general => "general"

/-- Model of `QuestionType(s)`: `some` on the six enum values, `none` models the
`ValueError` raised on any other string. -/
def questionTypeOfString (s : String) : Option QuestionType :=
  if s == "love" then some .love
  else if s == "career" then some .career
  else if s == "spiritual" then some .spiritual
  else if s == "financial" then some .financial
  else if s == "health" then some .health
  else if s == "general" then some .general
  else none

/-- Model of the `RelationshipType` enum from `core/models.py`. -/
inductive RelationshipType where
  | amplifies : RelationshipType
  | challenges : RelationshipType
  | clarifies : RelationshipType
  | similar_energy : RelationshipType
  | opposite_energy : RelationshipType
  | learning_sequence : RelationshipType
deriving DecidableEq, Repr

/-- Model of `RelationshipType.value`. -/
def relTypeValue : RelationshipType → String
  | .amplifies => "amplifies"
  | .challenges => "challenges"
  | .clarifies => "clarifies"
  | .similar_energy => "similar_energy"
  | .opposite_energy => "opposite_energy"
  | .learning_sequence => "learning_sequence"

/-- Model of `RelationshipType(s)`: `some` on the six enum values, `none` models the
`ValueError` caught by `continue` in `_find_relationships`. -/
def relTypeOfString (s : String) : Option RelationshipType :=
  if s == "amplifies" then some .amplifies
  else if s == "challenges" then some .challenges
  else if s == "clarifies" then some .clarifies
  else if s == "similar_energy" then some .similar_energy
  else if s == "opposite_energy" then some .opposite_energy
  else if s == "learning_sequence" then some .learning_sequence
  else none

/-- Orientation key used throughout `deck.py`:
`"reversed" if reversed else "upright"`. -/
def orientKey (rvsd : Bool) : String := if rvsd then "reversed" else "upright"

/-- Result dict of `TarotCard.get_interpretation` /
`TarotCard.get_question_context` / `TarotCard._get_core_meaning_fallback`:
keys `"interpretation"`, `"keywords"`, `"raw"`. -/
structure InterpResult where
  interpretation : JValue
  keywords : JValue
  raw : JValue

/-- The RAG-path walk inside `TarotCard.get_interpretation`: at each segment,
descend when the current node is a dict containing the segment, otherwise
abort (`none`). -/
def walkPath : JValue → List String → Option JValue
  | cur, [] => some cur
  | cur, part :: parts =>
    match cur with
    | .vObj fs =>
      match jLookup fs part with
      | some nxt => walkPath nxt parts
      | none => none
    | _ => none

/-- Model of `TarotCard._get_core_meaning_fallback(reversed)`:
`core = self._data.get("core_meanings", {})`,
`meaning = core.get(orientation_key, {})`, then the result dict built from
`meaning.get("essence", "")` and `meaning.get("keywords", [])`. -/
def getCoreMeaningFallback (data : List (String × JValue)) (rvsd : Bool) :
    Except PyError InterpResult :=
  match dictGetE (jLookupD data "core_meanings" (.vObj [])) (orientKey rvsd) (.vObj []) with
  | .error e => .error e
  | .ok meaning =>
    match dictGetE meaning "essence" (.vStr "") with
    | .error e => .error e
    | .ok essence =>
      match dictGetE meaning "keywords" (.vArr []) with
      | .error e => .error e
      | .ok kws => .ok ⟨essence, kws, meaning⟩

/-- Model of `TarotCard.get_interpretation(rag_mapping, reversed)`: walk the dotted
path from `self._data.get("position_interpretations", {})`; on a failed
segment or a non-dict terminal, fall back to core meanings; on a dict
terminal, select `current.get(orientation_key, "")` and
`current.get("keywords", [])`. -/
def getInterpretation (data : List (String × JValue)) (rag_mapping : String)
    (rvsd : Bool) : Except PyError InterpResult :=
  match walkPath (jLookupD data "position_interpretations" (.vObj [])) (pySplitDot rag_mapping) with
  | none => getCoreMeaningFallback data rvsd
  | some cur =>
    match cur with
    | .vObj fs =>
      .ok ⟨jLookupD fs (orientKey rvsd) (.vStr ""), jLookupD fs "keywords" (.vArr []), .vObj fs⟩
    | _ => getCoreMeaningFallback data rvsd

/-- Model of `TarotCard.get_question_context(question_type, reversed)`:
`contexts = self._data.get("question_contexts", {})`,
`context = contexts.get(question_type, {})`, then the result dict built from
`context.get(orientation_key, "")` and `context.get("keywords", [])`. -/
def getQuestionContext (data : List (String × JValue)) (question_type : String)
    (rvsd : Bool) : Except PyError InterpResult :=
  match dictGetE (jLookupD data "question_contexts" (.vObj [])) question_type (.vObj []) with
  | .error e => .error e
  | .ok context =>
    match dictGetE context (orientKey rvsd) (.vStr "") with
    | .error e => .error e
    | .ok interp =>
      match dictGetE context "keywords" (.vArr []) with
      | .error e => .error e
      | .ok kws => .ok ⟨interp, kws, context⟩

/-- Model of `TarotCard.get_core_meaning(reversed)`:
`core = self._data.get("core_meanings", {})`, return
`core.get(orientation_key, {})`. -/
def getCoreMeaning (data : List (String × JValue)) (rvsd : Bool) :
    Except PyError JValue :=
  dictGetE (jLookupD data "core_meanings" (.vObj [])) (orientKey rvsd) (.vObj [])

/-- A `TarotCard`: its raw JSON dict `self._data`, with the `card_name`
property (`self._data["card_name"]`, a required key of every card file)
carried as a field. -/
structure TarotCard where
  card_name : String
  data : List (String × JValue)

/-- Model of the deck field `_card_by_id`, a dict from card id to card
(`TarotDeck.get_card` raises `KeyError` on a missing id). -/
abbrev Deck := List (String × TarotCard)

/-- Model of `TarotDeck.get_card`, as a lookup (`none` models the `KeyError`). -/
def deckGet : Deck → String → Option TarotCard
  | [], _ => none
  | (k, c) :: rest, cid => if k == cid then some c else deckGet rest cid

/-- Model of `SpreadPosition` from `core/models.py` (the fields the assembler reads). -/
structure SpreadPosition where
  name : String
  short_description : String
  detailed_description : String
  keywords : List String
  rag_mapping : String

/-- Model of `SpreadDefinition` from `core/models.py` (layout/visual fields, which the
assembler never reads, are omitted). -/
structure SpreadDefinition where
  id : String
  name : String
  description : String
  category : String
  difficulty : String
  positions : List SpreadPosition

/-- Model of the `SpreadRegistry` field `_spreads`, a dict from spread id to definition
(`load_spread` raises `KeyError` on a missing id). -/
abbrev SpreadRegistryMap := List (String × SpreadDefinition)

/-- Model of `SpreadRegistry.load_spread`, as a lookup (`none` models the `KeyError`). -/
def spreadLookup : SpreadRegistryMap → String → Option SpreadDefinition
  | [], _ => none
  | (k, s) :: rest, sid => if k == sid then some s else spreadLookup rest sid

/-- Model of `DrawnCard` from `core/models.py`. -/
structure DrawnCard where
  card_id : String
  card_name : String
  position_index : Int
  position_name : String
  orientation : Orientation
  image_path : Option String

/-- Model of `Reading` from `core/models.py` (`created_at` omitted: wall-clock time). -/
structure Reading where
  id : String
  spread_id : String
  spread_name : String
  question : Option String
  question_type : Option QuestionType
  drawn_cards : List DrawnCard
  allow_reversals : Bool
  seed : Option Int

/-- Model of `CardInterpretation` from `core/models.py`.  Fields filled from
`dict.get` calls on raw card data keep the `JValue` type. -/
structure CardInterpretation where
  card_id : String
  card_name : String
  position_index : Int
  position_name : String
  position_description : String
  orientation : Orientation
  position_interpretation : JValue
  position_keywords : JValue
  question_context : Option JValue
  question_keywords : JValue
  core_essence : JValue
  core_keywords : JValue
  image_path : Option String

/-- Model of `CardRelationshipMatch` from `core/models.py`. -/
structure CardRelationshipMatch where
  card1_id : String
  card1_name : String
  card2_id : String
  card2_name : String
  relationship_type : RelationshipType
  interpretation : JValue
  keywords : JValue

/-- Model of `AssembledContext` from `core/models.py` (raw per-card dicts kept as
JSON objects). -/
structure AssembledContext where
  reading_id : String
  spread_name : String
  question : Option String
  question_type : Option QuestionType
  card_interpretations : List CardInterpretation
  relationships : List CardRelationshipMatch
  raw_cards_data : List JValue

/-- The `question_type` argument of `DeterministicAssembler.assemble`:
`QuestionType | str | None`. -/
inductive QTArg where
  | qtEnum : QuestionType → QTArg
  | qtStr : String → QTArg
  | qtNone : QTArg

/-- Lines 53-57 of `assembly.py`: a string argument is parsed with
`QuestionType(...)` (raising `ValueError` on an unknown value), `None` falls
back to `reading.question_type`, an enum value is kept. -/
def normalizeQT : QTArg → Reading → Except PyError (Option QuestionType)
  | .qtStr s, _ =>
    match questionTypeOfString s with
    | some q => .ok (some q)
    | none => .error (.valueErrorQuestionType s)
  | .qtEnum q, _ => .ok (some q)
  | .qtNone, reading => .ok reading.question_type

/-- Python list indexing `xs[i]`: non-negative indices from the front,
negative indices from the back, `IndexError` (`none`) outside `-len ≤ i < len`. -/
def pyIndex {α : Type} (xs : List α) (i : Int) : Option α :=
  let j : Int := if i < 0 then (xs.length : Int) + i else i
  if h : 0 ≤ j ∧ j < (xs.length : Int) then
    some (xs.get ⟨j.toNat, by omega⟩)
  else none

/-- Sequencing of an except-valued producer of lists over a list, appending
results in order and stopping at the first raised exception: the shape of the
nested `for` loops in `_find_relationships`. -/
def collectE {α β : Type} (f : α → Except PyError (List β)) :
    List α → Except PyError (List β)
  | [] => .ok []
  | a :: as =>
    match f a with
    | .error e => .error e
    | .ok xs =>
      match collectE f as with
      | .error e => .error e
      | .ok ys => .ok (xs ++ ys)

/-- Innermost loop body of `_find_relationships` (lines 156-178): for one
target entry `(other_card_id, rel_data)` of one relationship type declared by
the card of `dc`, emit at most one `CardRelationshipMatch`. -/
def scanRelEntry (deck : Deck) (drawnIds : List String) (dc : DrawnCard)
    (relTy : RelationshipType) (entry : String × JValue) :
    Except PyError (List CardRelationshipMatch) :=
  if pyMem entry.1 drawnIds && !(entry.1 == dc.card_id) then
    match deckGet deck entry.1 with
    | none => .error (.keyErrorCard entry.1)
    | some other =>
      if pyStrLt dc.card_id entry.1 then
        match dictGetE entry.2 "interpretation" (.vStr "") with
        | .error e => .error e
        | .ok interp =>
          if jTruthy interp then
            match interp with
            | .vStr s =>
              if pyStartsWith s "[TO BE WRITTEN" then .ok []
              else
                match dictGetE entry.2 "keywords" (.vArr []) with
                | .error e => .error e
                | .ok kws =>
                  .ok [⟨dc.card_id, dc.card_name, entry.1, other.card_name, relTy, .vStr s, kws⟩]
            | _ => .error .attributeError
          else .ok []
      else .ok []
  else .ok []

/-- Middle loop body of `_find_relationships` (lines 150-156): one entry
`(rel_type_str, related_cards)` of the relationship dict of the card.  An unknown
type string is skipped (`continue` on `ValueError`); `.items()` on a
non-dict `related_cards` raises. -/
def scanRelTypeEntry (deck : Deck) (drawnIds : List String) (dc : DrawnCard)
    (tentry : String × JValue) : Except PyError (List CardRelationshipMatch) :=
  match relTypeOfString tentry.1 with
  | none => .ok []
  | some relTy =>
    match tentry.2 with
    | .vObj targets => collectE (scanRelEntry deck drawnIds dc relTy) targets
    | _ => .error .attributeError

/-- Outer loop body of `_find_relationships` (lines 145-150): fetch the drawn
card object for the drawn card and iterate its `card_relationships` dict
(`self._data.get("card_relationships", {})`). -/
def scanCard (deck : Deck) (drawnIds : List String) (dc : DrawnCard) :
    Except PyError (List CardRelationshipMatch) :=
  match deckGet deck dc.card_id with
  | none => .error (.keyErrorCard dc.card_id)
  | some card =>
    match jLookupD card.data "card_relationships" (.vObj []) with
    | .vObj relFields => collectE (scanRelTypeEntry deck drawnIds dc) relFields
    | _ => .error .attributeError

/-- Model of `DeterministicAssembler._find_relationships(reading)`: scan every drawn
card against the set of drawn card ids. -/
def findRelationships (deck : Deck) (reading : Reading) :
    Except PyError (List CardRelationshipMatch) :=
  collectE (scanCard deck (reading.drawn_cards.map (fun dc => dc.card_id)))
    reading.drawn_cards

/-- The question-context block of `assemble` (lines 74-80): for an active
non-`general` category, resolve the question context of the card; otherwise the
fields stay `None` / `[]`. -/
def qcPair (card : TarotCard) (qt : Option QuestionType) (rvsd : Bool) :
    Except PyError (Option JValue × JValue) :=
  match qt with
  | some q =>
    if q == QuestionType.general then .ok (none, .vArr [])
    else
      match getQuestionContext card.data (questionTypeValue q) rvsd with
      | .error e => .error e
      | .ok qcd => .ok (some qcd.interpretation, qcd.keywords)
  | none => .ok (none, .vArr [])

/-- One iteration of the per-card loop of `assemble` (lines 63-119): produce
the `CardInterpretation` and the raw-data dict for one drawn card. -/
def assembleCardPair (deck : Deck) (spread : SpreadDefinition)
    (qt : Option QuestionType) (dc : DrawnCard) :
    Except PyError (CardInterpretation × JValue) :=
  match deckGet deck dc.card_id with
  | none => .error (.keyErrorCard dc.card_id)
  | some card =>
    match pyIndex spread.positions dc.position_index with
    | none => .error .indexError
    | some position =>
      match getInterpretation card.data position.rag_mapping (dc.orientation == .reversed) with
      | .error e => .error e
      | .ok interp =>
        match qcPair card qt (dc.orientation == .reversed) with
        | .error e => .error e
        | .ok (qc, qk) =>
          match getCoreMeaning card.data (dc.orientation == .reversed) with
          | .error e => .error e
          | .ok core =>
            match dictGetE core "essence" (.vStr "") with
            | .error e => .error e
            | .ok essence =>
              match dictGetE core "keywords" (.vArr []) with
              | .error e => .error e
              | .ok ckws =>
                .ok (⟨dc.card_id, dc.card_name, dc.position_index, position.name,
                      pyOrStr position.detailed_description position.short_description,
                      dc.orientation, interp.interpretation, interp.keywords,
                      qc, qk, essence, ckws, dc.image_path⟩,
                  .vObj [("card_id", .vStr dc.card_id),
                         ("card_name", .vStr dc.card_name),
                         ("position_index", .vNum dc.position_index),
                         ("position_name", .vStr position.name),
                         ("position_description",
                           .vStr (pyOrStr position.detailed_description position.short_description)),
                         ("orientation", .vStr (orientationValue dc.orientation)),
                         ("position_interpretation", interp.interpretation),
                         ("position_keywords", interp.keywords),
                         ("question_context", match qc with | some v => v | none => .vNull),
                         ("question_keywords", qk),
                         ("core_essence", essence),
                         ("core_keywords", ckws),
                         ("image_path", match dc.image_path with | some p => .vStr p | none => .vNull),
                         ("raw_card_data", .vObj card.data)])

/-- The per-card loop of `assemble`: builds `card_interpretations` and
`raw_cards_data` in drawn order, aborting at the first exception. -/
def assembleCards (deck : Deck) (spread : SpreadDefinition)
    (qt : Option QuestionType) :
    List DrawnCard → Except PyError (List CardInterpretation × List JValue)
  | [] => .ok ([], [])
  | dc :: rest =>
    match assembleCardPair deck spread qt dc with
    | .error e => .error e
    | .ok (ci, raw) =>
      match assembleCards deck spread qt rest with
      | .error e => .error e
      | .ok (cis, raws) => .ok (ci :: cis, raw :: raws)

/-- Model of `DeterministicAssembler.assemble(reading, question_type,
include_relationships)`: spread lookup, question-type normalization, the
per-card loop, optional relationship scan, and the final `AssembledContext`. -/
def assemble (deck : Deck) (registry : SpreadRegistryMap) (reading : Reading)
    (question_type : QTArg) (include_relationships : Bool) :
    Except PyError AssembledContext :=
  match spreadLookup registry reading.spread_id with
  | none => .error (.keyErrorSpread reading.spread_id)
  | some spread =>
    match normalizeQT question_type reading with
    | .error e => .error e
    | .ok qt =>
      match assembleCards deck spread qt reading.drawn_cards with
      | .error e => .error e
      | .ok (cis, raws) =>
        match (if include_relationships then findRelationships deck reading else .ok []) with
        | .error e => .error e
        | .ok rels =>
          .ok ⟨reading.id, reading.spread_name, reading.question, qt, cis, rels, raws⟩

/-! ## Auxiliary predicates used in theorem statements -/

/-- Boolean check that a list of strings has no duplicates, modelling the
uniqueness of Python dict keys and of a set of drawn card ids. -/
def nodupB : List String → Bool
  | [] => true
  | a :: as => !(pyMem a as) && nodupB as

/-- Well-formedness of one relationship-type entry: when its target value is
a dict, the target card ids are unique (true of every real Python dict). -/
def wfTargets : JValue → Bool
  | .vObj ts => nodupB (ts.map Prod.fst)
  | _ => true

/-- Well-formedness of the card relationship data: when present as a dict,
its keys are unique and each target dict has unique keys (true of every dict
produced by `json.load`). -/
def wfRels (c : TarotCard) : Bool :=
  match jLookupD c.data "card_relationships" (.vObj []) with
  | .vObj fs => nodupB (fs.map Prod.fst) && fs.all (fun e => wfTargets e.2)
  | _ => true

/-- Every card of the deck satisfies `wfRels`. -/
def deckAllWf (deck : Deck) : Bool := deck.all (fun p => wfRels p.2)

/-- Facts true of every `CardRelationshipMatch` emitted by the scan: it is
declared by the scanned drawn card, canonically ordered, with a non-empty,
non-placeholder string interpretation. -/
def EmittedFacts (dc : DrawnCard) (m : CardRelationshipMatch) : Prop :=
  m.card1_id = dc.card_id ∧ m.card1_name = dc.card_name ∧
  pyStrLt m.card1_id m.card2_id = true ∧ (m.card2_id == m.card1_id) = false ∧
  ∃ s, m.interpretation = JValue.vStr s ∧ (s == "") = false ∧
    pyStartsWith s "[TO BE WRITTEN" = false

/-- True when an `assemble` call returned an `AssembledContext`. -/
def resultIsOk : Except PyError AssembledContext → Bool
  | .ok _ => true
  | .error _ => false

/-- Placeholder context used to destruct successful `assemble` results in
closed statements. -/
def emptyCtx : AssembledContext := ⟨"", "", none, none, [], [], []⟩

/-- The context inside a successful `assemble` result. -/
def exOk : Except PyError AssembledContext → AssembledContext
  | .ok c => c
  | .error _ => emptyCtx

/-- The match list inside a successful `_find_relationships` result. -/
def exOkRels : Except PyError (List CardRelationshipMatch) → List CardRelationshipMatch
  | .ok l => l
  | .error _ => []

/-- Placeholder `CardInterpretation` used with `List.getD` in closed
statements. -/
def junkCI : CardInterpretation :=
  ⟨"", "", 0, "", "", .upright, .vNull, .vNull, none, .vNull, .vNull, .vNull, none⟩

/-- Placeholder `CardRelationshipMatch` used with `List.getD` in closed
statements. -/
def junkMatch : CardRelationshipMatch := ⟨"", "", "", "", .amplifies, .vNull, .vNull⟩

/-! ## Concrete card, spread and reading data for witnesses and
counterexamples -/

/-- Relationship entry dict with an interpretation text and keyword list. -/
def relDataObj (interp : String) (kws : List String) : JValue :=
  .vObj [("interpretation", .vStr interp), ("keywords", .vArr (kws.map JValue.vStr))]

/-- Core meanings dict with upright and reversed branches. -/
def basicCoreMeanings : JValue :=
  .vObj [("upright", .vObj [("essence", .vStr "Core upright essence"),
                            ("keywords", .vArr [.vStr "core-up"])]),
         ("reversed", .vObj [("essence", .vStr "Core reversed essence"),
                             ("keywords", .vArr [.vStr "core-rev"])])]

/-- Terminal node of the sample RAG path `temporal_positions.past`. -/
def pastNodeFields : List (String × JValue) :=
  [("upright", .vStr "Past upright"), ("reversed", .vStr "Past reversed"),
   ("keywords", .vArr [.vStr "past-k"])]

/-- Position interpretations dict with the single path
`temporal_positions.past`. -/
def basicPosInterps : JValue :=
  .vObj [("temporal_positions", .vObj [("past", .vObj pastNodeFields)])]

/-- Builder for a card with the standard sample data plus extra entries. -/
def mkCard (cid nm : String) (extra : List (String × JValue)) : TarotCard :=
  ⟨nm, [("card_id", .vStr cid), ("card_name", .vStr nm),
        ("position_interpretations", basicPosInterps),
        ("core_meanings", basicCoreMeanings)] ++ extra⟩

/-- One-position spread whose position maps to `temporal_positions.past`. -/
def spreadOnePos : SpreadDefinition :=
  ⟨"simple", "Simple", "one card", "general", "beginner",
   [⟨"Past", "short desc", "detailed desc", [], "temporal_positions.past"⟩]⟩

/-- Registry holding only `spreadOnePos`. -/
def registryOne : SpreadRegistryMap := [("simple", spreadOnePos)]

/-- Card declaring an `amplifies` relationship targeting `card_b`. -/
def cardC1A : TarotCard :=
  mkCard "card_a" "The A"
    [("card_relationships", .vObj [("amplifies", .vObj [("card_b", relDataObj "Amplify text" [])])])]

/-- Card declaring a `challenges` relationship targeting `card_a`. -/
def cardC1B : TarotCard :=
  mkCard "card_b" "The B"
    [("card_relationships", .vObj [("challenges", .vObj [("card_a", relDataObj "Challenge text" [])])])]

/-- Deck containing `cardC1A` and `cardC1B`. -/
def deckC1 : Deck := [("card_a", cardC1A), ("card_b", cardC1B)]

/-- Reading drawing `card_a` and `card_b` once each. -/
def readingC1 : Reading :=
  ⟨"r1", "simple", "Simple", none, none,
   [⟨"card_a", "The A", 0, "Past", .upright, none⟩,
    ⟨"card_b", "The B", 0, "Past", .upright, none⟩], true, none⟩

/-- The single match the scan emits for `readingC1`. -/
def matchC1 : CardRelationshipMatch :=
  ⟨"card_a", "The A", "card_b", "The B", .amplifies, .vStr "Amplify text", .vArr []⟩

/-- Reading drawing `card_a` twice and `card_b` once. -/
def readingC4 : Reading :=
  ⟨"r4", "simple", "Simple", none, none,
   [⟨"card_a", "The A", 0, "Past", .upright, none⟩,
    ⟨"card_a", "The A", 0, "Past", .upright, none⟩,
    ⟨"card_b", "The B", 0, "Past", .upright, none⟩], true, none⟩

/-- The match duplicated by the double draw of `card_a` in `readingC4`. -/
def matchC4 : CardRelationshipMatch :=
  ⟨"card_a", "The A", "card_b", "The B", .amplifies, .vStr "Amplify text", .vArr []⟩

/-- Card data used to witness the resolved and fallback branches of the RAG
walk. -/
def dataC2 : List (String × JValue) :=
  [("card_id", .vStr "card_c2"), ("card_name", .vStr "The C2"),
   ("position_interpretations", basicPosInterps),
   ("core_meanings", basicCoreMeanings)]

/-- Card data whose RAG path `p` resolves to a dict that carries neither
orientation branch nor keywords. -/
def dataC3 : List (String × JValue) :=
  [("position_interpretations", .vObj [("p", .vObj [])]),
   ("core_meanings", .vObj [("upright", .vObj [("essence", .vStr "CORE"),
                                               ("keywords", .vArr [.vStr "k"])])])]

/-- Card data whose RAG path `p` resolves to a bare string. -/
def dataC3W : List (String × JValue) :=
  [("position_interpretations", .vObj [("p", .vStr "oops")]),
   ("core_meanings", basicCoreMeanings)]

/-- Single-card deck for assembly witnesses. -/
def deckW5 : Deck := [("card_a", mkCard "card_a" "The A" [])]

/-- Single-card reading for assembly witnesses. -/
def readingW5 : Reading :=
  ⟨"r5", "simple", "Simple", none, none,
   [⟨"card_a", "The A", 0, "Past", .upright, none⟩], true, none⟩

/-- Drawn card with the Python-style negative position index `-1`. -/
def dcC6 : DrawnCard := ⟨"card_a", "The A", -1, "Past", .upright, none⟩

/-- Reading used by the Python negative-index counterexample. -/
def readingC6 : Reading :=
  ⟨"r6", "simple", "Simple", none, none, [dcC6], true, none⟩

/-- Card with a `general` question-context bucket. -/
def cardW7a : TarotCard :=
  mkCard "card_a" "The A"
    [("question_contexts", .vObj [("general", .vObj [("upright", .vStr "General text"),
                                                     ("keywords", .vArr [.vStr "gk"])])])]

/-- Deck holding `cardW7a`. -/
def deckW7a : Deck := [("card_a", cardW7a)]

/-- Card with a question-context tree lacking the `love` bucket. -/
def cardW7b : TarotCard :=
  mkCard "card_b" "The B"
    [("question_contexts", .vObj [("career", .vObj [("upright", .vStr "Career text"),
                                                    ("keywords", .vArr [.vStr "ck"])])])]

/-- Deck holding `cardW7b`. -/
def deckW7b : Deck := [("card_b", cardW7b)]

/-- The question-context fields of `cardW7b`. -/
def fsW7b : List (String × JValue) :=
  [("career", .vObj [("upright", .vStr "Career text"),
                     ("keywords", .vArr [.vStr "ck"])])]

/-- Reading drawing `card_b` once. -/
def readingW7b : Reading :=
  ⟨"r7b", "simple", "Simple", none, none,
   [⟨"card_b", "The B", 0, "Past", .upright, none⟩], true, none⟩

/-- Card declaring one authored and one placeholder relationship. -/
def cardW9 : TarotCard :=
  mkCard "card_a" "The A"
    [("card_relationships",
      .vObj [("amplifies", .vObj [("card_b", relDataObj "A genuine combination." [])]),
             ("challenges", .vObj [("card_b", relDataObj "[TO BE WRITTEN: later]" [])])])]

/-- Deck holding `cardW9` and a plain `card_b`. -/
def deckW9 : Deck := [("card_a", cardW9), ("card_b", mkCard "card_b" "The B" [])]

/-- Reading drawing `card_a` and `card_b` once each. -/
def readingW9 : Reading :=
  ⟨"r9", "simple", "Simple", none, none,
   [⟨"card_a", "The A", 0, "Past", .upright, none⟩,
    ⟨"card_b", "The B", 0, "Past", .upright, none⟩], true, none⟩

/-- Reading whose spread id is absent from every registry used with it. -/
def readingC10 : Reading :=
  ⟨"r10", "missing_spread", "Missing", none, none, [], true, none⟩

/-! ## Helper lemmas -/

theorem collectE_ok_mem {α β : Type} (f : α → Except PyError (List β)) :
    ∀ (l : List α) (ms : List β), collectE f l = .ok ms →
      ∀ m ∈ ms, ∃ a ∈ l, ∃ xs, f a = .ok xs ∧ m ∈ xs := by
  intro l
  induction l with
  | nil =>
    intro ms h m hm
    simp only [collectE] at h
    cases h
    simp at hm
  | cons a as ih =>
    intro ms h m hm
    simp only [collectE] at h
    cases hfa : f a with
    | error e => rw [hfa] at h; cases h
    | ok xs =>
      rw [hfa] at h
      cases hrest : collectE f as with
      | error e => rw [hrest] at h; cases h
      | ok ys =>
        rw [hrest] at h
        cases h
        rcases List.mem_append.mp hm with hx | hy
        · exact ⟨a, List.mem_cons_self a as, xs, hfa, hx⟩
        · obtain ⟨b, hb, zs, hfb, hmz⟩ := ih ys hrest m hy
          exact ⟨b, List.mem_cons_of_mem a hb, zs, hfb, hmz⟩

theorem collectE_countP_zero {α β : Type} (f : α → Except PyError (List β))
    (p : β → Bool) (l : List α) (ms : List β) (h : collectE f l = .ok ms)
    (hz : ∀ a ∈ l, ∀ xs, f a = .ok xs → xs.countP p = 0) : ms.countP p = 0 := by
  rw [List.countP_eq_zero]
  intro m hm
  obtain ⟨a, ha, xs, hfa, hmx⟩ := collectE_ok_mem f l ms h m hm
  have := hz a ha xs hfa
  rw [List.countP_eq_zero] at this
  exact this m hmx

theorem collectE_countP_le_one {α β : Type} (f : α → Except PyError (List β))
    (p : β → Bool) (q : α → Bool) :
    ∀ (l : List α) (ms : List β), collectE f l = .ok ms →
      l.countP q ≤ 1 →
      (∀ a ∈ l, ∀ xs, f a = .ok xs → q a = false → xs.countP p = 0) →
      (∀ a ∈ l, ∀ xs, f a = .ok xs → xs.countP p ≤ 1) →
      ms.countP p ≤ 1 := by
  intro l
  induction l with
  | nil =>
    intro ms h _ _ _
    simp only [collectE] at h
    cases h
    simp
  | cons a as ih =>
    intro ms h hq hz h1
    simp only [collectE] at h
    cases hfa : f a with
    | error e => rw [hfa] at h; cases h
    | ok xs =>
      rw [hfa] at h
      cases hrest : collectE f as with
      | error e => rw [hrest] at h; cases h
      | ok ys =>
        rw [hrest] at h
        cases h
        rw [List.countP_append]
        rw [List.countP_cons] at hq
        cases hqa : q a with
        | false =>
          have hx0 : xs.countP p = 0 := hz a (List.mem_cons_self a as) xs hfa hqa
          have hq' : as.countP q ≤ 1 := by
            rw [hqa] at hq; simpa using hq
          have := ih ys hrest hq'
            (fun b hb zs hfb hqb => hz b (List.mem_cons_of_mem a hb) zs hfb hqb)
            (fun b hb zs hfb => h1 b (List.mem_cons_of_mem a hb) zs hfb)
          omega
        | true =>
          have hx1 : xs.countP p ≤ 1 := h1 a (List.mem_cons_self a as) xs hfa
          have hq0 : as.countP q = 0 := by
            rw [hqa] at hq
            have hone : (if (true : Bool) = true then 1 else 0) = 1 := rfl
            rw [hone] at hq
            omega
          have hy0 : ys.countP p = 0 := by
            apply collectE_countP_zero f p as ys hrest
            intro b hb zs hfb
            rw [List.countP_eq_zero] at hq0
            have hqb : q b = false := by
              have := hq0 b hb
              simpa using this
            exact hz b (List.mem_cons_of_mem a hb) zs hfb hqb
          omega

theorem pyMem_false_forall (s : String) :
    ∀ (l : List String), pyMem s l = false → ∀ x ∈ l, (x == s) = false := by
  intro l
  induction l with
  | nil => intro _ x hx; simp at hx
  | cons a as ih =>
    intro h x hx
    simp only [pyMem, Bool.or_eq_false_iff] at h
    rcases List.mem_cons.mp hx with rfl | hx'
    · exact h.1
    · exact ih h.2 x hx'

theorem countP_beq_le_one_of_nodupB {α : Type} (key : α → String) (k : String) :
    ∀ (l : List α), nodupB (l.map key) = true →
      l.countP (fun a => key a == k) ≤ 1 := by
  intro l
  induction l with
  | nil => intro _; simp
  | cons a as ih =>
    intro h
    simp only [List.map_cons, nodupB, Bool.and_eq_true, Bool.not_eq_true'] at h
    obtain ⟨hm, hn⟩ := h
    rw [List.countP_cons]
    cases hka : (key a == k) with
    | false => simpa [hka] using ih hn
    | true =>
      have hk : key a = k := eq_of_beq hka
      have h0 : as.countP (fun a => key a == k) = 0 := by
        rw [List.countP_eq_zero]
        intro b hb hbk
        have hbk' : key b = k := by simpa using hbk
        have := pyMem_false_forall (key a) (as.map key) hm (key b)
          (List.mem_map_of_mem key hb)
        rw [hbk', ← hk] at this
        simp at this
      rw [h0]
      have hone : (if (true : Bool) = true then 1 else 0) = 1 := rfl
      rw [hone]

theorem charsLt_asymm : ∀ (a b : List Char), charsLt a b = true → charsLt b a = false := by
  intro a
  induction a with
  | nil =>
    intro b h
    cases b with
    | nil => simp [charsLt] at h
    | cons y ys => simp [charsLt]
  | cons x xs ih =>
    intro b h
    cases b with
    | nil => simp [charsLt] at h
    | cons y ys =>
      simp only [charsLt] at h ⊢
      by_cases h1 : x.toNat < y.toNat
      · rw [if_neg (show ¬ y.toNat < x.toNat by omega),
          if_neg (show ¬ y.toNat = x.toNat by omega)]
      · rw [if_neg h1] at h
        by_cases h2 : x.toNat = y.toNat
        · rw [if_pos h2] at h
          rw [if_neg (show ¬ y.toNat < x.toNat by omega), if_pos h2.symm]
          exact ih ys h
        · rw [if_neg h2] at h
          simp at h

theorem pyStrLt_asymm (s t : String) (h : pyStrLt s t = true) : pyStrLt t s = false :=
  charsLt_asymm s.data t.data h

theorem relTypeOfString_eq_value (s : String) (t : RelationshipType)
    (h : relTypeOfString s = some t) : s = relTypeValue t := by
  unfold relTypeOfString at h
  repeat' split at h
  all_goals first
    | exact Option.noConfusion h
    | (cases h; exact eq_of_beq (by assumption))

theorem deckGet_wf (deck : Deck) (cid : String) (c : TarotCard)
    (hwf : deckAllWf deck = true) (h : deckGet deck cid = some c) :
    wfRels c = true := by
  induction deck with
  | nil => simp [deckGet] at h
  | cons p rest ih =>
    obtain ⟨k, c0⟩ := p
    simp only [deckAllWf, List.all_cons, Bool.and_eq_true] at hwf
    simp only [deckGet] at h
    split at h
    · cases h; exact hwf.1
    · exact ih hwf.2 h

theorem scanRelEntry_ok (deck : Deck) (ids : List String) (dc : DrawnCard)
    (ty : RelationshipType) (e : String × JValue) (xs : List CardRelationshipMatch)
    (h : scanRelEntry deck ids dc ty e = .ok xs) :
    xs.length ≤ 1 ∧
      ∀ m ∈ xs, EmittedFacts dc m ∧ m.card2_id = e.1 ∧ m.relationship_type = ty := by
  unfold scanRelEntry at h
  split at h
  case isFalse =>
    cases h
    exact ⟨by simp, by simp⟩
  case isTrue hcond =>
    rw [Bool.and_eq_true, Bool.not_eq_true'] at hcond
    obtain ⟨hmem, hne⟩ := hcond
    split at h
    · cases h
    case h_2 other hother =>
      split at h
      case isFalse => cases h; exact ⟨by simp, by simp⟩
      case isTrue hlt =>
        split at h
        · cases h
        case h_2 interp hinterp =>
          split at h
          case isFalse => cases h; exact ⟨by simp, by simp⟩
          case isTrue htr =>
            split at h
            case h_2 => cases h
            case h_1 s =>
              split at h
              case isTrue => cases h; exact ⟨by simp, by simp⟩
              case isFalse hps =>
                split at h
                · cases h
                case h_2 kws hkws =>
                  cases h
                  refine ⟨by simp, ?_⟩
                  intro m hm
                  rw [List.mem_singleton] at hm
                  subst hm
                  refine ⟨⟨rfl, rfl, hlt, hne, s, rfl, ?_, ?_⟩, rfl, rfl⟩
                  · simpa [jTruthy, Bool.not_eq_true'] using htr
                  · exact Bool.not_eq_true _ ▸ by
                      simpa using hps

theorem scanRelTypeEntry_ok (deck : Deck) (ids : List String) (dc : DrawnCard)
    (te : String × JValue) (xs : List CardRelationshipMatch)
    (h : scanRelTypeEntry deck ids dc te = .ok xs) :
    ∀ m ∈ xs, EmittedFacts dc m ∧ relTypeOfString te.1 = some m.relationship_type := by
  unfold scanRelTypeEntry at h
  split at h
  case h_1 =>
    cases h
    simp
  case h_2 ty hty =>
    split at h
    case h_2 => cases h
    case h_1 targets htg =>
      intro m hm
      obtain ⟨en, _, zs, hz, hmz⟩ := collectE_ok_mem _ _ _ h m hm
      obtain ⟨_, hfacts⟩ := scanRelEntry_ok deck ids dc ty en zs hz
      obtain ⟨hf, _, hty2⟩ := hfacts m hmz
      exact ⟨hf, by rw [hty, hty2]⟩

theorem scanCard_ok (deck : Deck) (ids : List String) (dc : DrawnCard)
    (xs : List CardRelationshipMatch) (h : scanCard deck ids dc = .ok xs) :
    ∀ m ∈ xs, EmittedFacts dc m := by
  unfold scanCard at h
  split at h
  · cases h
  case h_2 card hcard =>
    split at h
    case h_2 => cases h
    case h_1 relFields hrf =>
      intro m hm
      obtain ⟨te, _, zs, hz, hmz⟩ := collectE_ok_mem _ _ _ h m hm
      exact (scanRelTypeEntry_ok deck ids dc te zs hz m hmz).1

theorem findRelationships_ok_facts (deck : Deck) (reading : Reading)
    (ms : List CardRelationshipMatch) (h : findRelationships deck reading = .ok ms) :
    ∀ m ∈ ms, ∃ dc ∈ reading.drawn_cards, EmittedFacts dc m := by
  intro m hm
  unfold findRelationships at h
  obtain ⟨dc, hdc, xs, hx, hmx⟩ := collectE_ok_mem _ _ _ h m hm
  exact ⟨dc, hdc, scanCard_ok _ _ _ _ hx m hmx⟩

theorem assembleCards_ok_length (deck : Deck) (spread : SpreadDefinition)
    (qt : Option QuestionType) :
    ∀ (l : List DrawnCard) (cis : List CardInterpretation) (raws : List JValue),
      assembleCards deck spread qt l = .ok (cis, raws) → cis.length = l.length := by
  intro l
  induction l with
  | nil =>
    intro cis raws h
    simp only [assembleCards] at h
    cases h
    rfl
  | cons dc rest ih =>
    intro cis raws h
    simp only [assembleCards] at h
    cases hp : assembleCardPair deck spread qt dc with
    | error e => rw [hp] at h; cases h
    | ok pr =>
      obtain ⟨ci, raw⟩ := pr
      rw [hp] at h
      cases hr : assembleCards deck spread qt rest with
      | error e => rw [hr] at h; cases h
      | ok pr2 =>
        obtain ⟨cis2, raws2⟩ := pr2
        rw [hr] at h
        cases h
        simp [ih cis2 raws2 hr]

theorem assembleCards_ok_get (deck : Deck) (spread : SpreadDefinition)
    (qt : Option QuestionType) :
    ∀ (l : List DrawnCard) (cis : List CardInterpretation) (raws : List JValue),
      assembleCards deck spread qt l = .ok (cis, raws) →
      ∀ (i : Nat) (h1 : i < l.length) (h2 : i < cis.length),
        ∃ raw, assembleCardPair deck spread qt (l.get ⟨i, h1⟩) =
          .ok (cis.get ⟨i, h2⟩, raw) := by
  intro l
  induction l with
  | nil =>
    intro cis raws h i h1 h2
    simp at h1
  | cons dc rest ih =>
    intro cis raws h i h1 h2
    simp only [assembleCards] at h
    cases hp : assembleCardPair deck spread qt dc with
    | error e => rw [hp] at h; cases h
    | ok pr =>
      obtain ⟨ci, raw⟩ := pr
      rw [hp] at h
      cases hr : assembleCards deck spread qt rest with
      | error e => rw [hr] at h; cases h
      | ok pr2 =>
        obtain ⟨cis2, raws2⟩ := pr2
        rw [hr] at h
        cases h
        cases i with
        | zero => exact ⟨raw, hp⟩
        | succ n =>
          exact ih cis2 raws2 hr n (by simpa using h1) (by simpa using h2)

theorem assembleCards_ok_mem (deck : Deck) (spread : SpreadDefinition)
    (qt : Option QuestionType) :
    ∀ (l : List DrawnCard) (cis : List CardInterpretation) (raws : List JValue),
      assembleCards deck spread qt l = .ok (cis, raws) →
      ∀ ci ∈ cis, ∃ dc ∈ l, ∃ raw,
        assembleCardPair deck spread qt dc = .ok (ci, raw) := by
  intro l
  induction l with
  | nil =>
    intro cis raws h ci hci
    simp only [assembleCards] at h
    cases h
    simp at hci
  | cons dc rest ih =>
    intro cis raws h ci hci
    simp only [assembleCards] at h
    cases hp : assembleCardPair deck spread qt dc with
    | error e => rw [hp] at h; cases h
    | ok pr =>
      obtain ⟨ci0, raw⟩ := pr
      rw [hp] at h
      cases hr : assembleCards deck spread qt rest with
      | error e => rw [hr] at h; cases h
      | ok pr2 =>
        obtain ⟨cis2, raws2⟩ := pr2
        rw [hr] at h
        cases h
        rcases List.mem_cons.mp hci with rfl | hci2
        · exact ⟨dc, List.mem_cons_self dc rest, raw, hp⟩
        · obtain ⟨dc2, hdc2, raw2, hp2⟩ := ih cis2 raws2 hr ci hci2
          exact ⟨dc2, List.mem_cons_of_mem dc hdc2, raw2, hp2⟩

theorem assembleCards_ok_dc (deck : Deck) (spread : SpreadDefinition)
    (qt : Option QuestionType) :
    ∀ (l : List DrawnCard) (cis : List CardInterpretation) (raws : List JValue),
      assembleCards deck spread qt l = .ok (cis, raws) →
      ∀ dc ∈ l, ∃ ci raw, assembleCardPair deck spread qt dc = .ok (ci, raw) := by
  intro l
  induction l with
  | nil =>
    intro cis raws h dc hdc
    simp at hdc
  | cons dc0 rest ih =>
    intro cis raws h dc hdc
    simp only [assembleCards] at h
    cases hp : assembleCardPair deck spread qt dc0 with
    | error e => rw [hp] at h; cases h
    | ok pr =>
      obtain ⟨ci0, raw⟩ := pr
      rw [hp] at h
      cases hr : assembleCards deck spread qt rest with
      | error e => rw [hr] at h; cases h
      | ok pr2 =>
        obtain ⟨cis2, raws2⟩ := pr2
        rw [hr] at h
        cases h
        rcases List.mem_cons.mp hdc with rfl | hdc2
        · exact ⟨ci0, raw, hp⟩
        · exact ih cis2 raws2 hr dc hdc2

theorem assembleCardPair_ok_fields (deck : Deck) (spread : SpreadDefinition)
    (qt : Option QuestionType) (dc : DrawnCard) (ci : CardInterpretation)
    (raw : JValue) (h : assembleCardPair deck spread qt dc = .ok (ci, raw)) :
    ci.card_id = dc.card_id ∧ ci.card_name = dc.card_name ∧
    ci.position_index = dc.position_index ∧ ci.orientation = dc.orientation ∧
    (pyIndex spread.positions dc.position_index).isSome = true := by
  unfold assembleCardPair at h
  split at h
  · cases h
  case h_2 card hcard =>
    split at h
    · cases h
    case h_2 position hpos =>
      split at h
      · cases h
      case h_2 interp hint =>
        split at h
        · cases h
        case h_2 qc qk hqc =>
          split at h
          · cases h
          case h_2 core hcm =>
            split at h
            · cases h
            case h_2 essence hes =>
              split at h
              · cases h
              case h_2 ckws hkw =>
                injection h with h2
                injection h2 with hci hraw
                subst hci
                exact ⟨rfl, rfl, rfl, rfl, by rw [hpos]; rfl⟩

theorem assembleCardPair_ok_qc_none (deck : Deck) (spread : SpreadDefinition)
    (qt : Option QuestionType) (dc : DrawnCard) (ci : CardInterpretation)
    (raw : JValue) (h : assembleCardPair deck spread qt dc = .ok (ci, raw))
    (hqt : qt = none ∨ qt = some QuestionType.general) :
    ci.question_context = none ∧ ci.question_keywords = JValue.vArr [] := by
  have hqc0 : ∀ (card : TarotCard) (rvsd : Bool),
      qcPair card qt rvsd = .ok (none, JValue.vArr []) := by
    intro card rvsd
    rcases hqt with rfl | rfl
    · rfl
    · rfl
  unfold assembleCardPair at h
  split at h
  · cases h
  case h_2 card hcard =>
    split at h
    · cases h
    case h_2 position hpos =>
      split at h
      · cases h
      case h_2 interp hint =>
        split at h
        · cases h
        case h_2 qc qk hqc =>
          rw [hqc0 card (dc.orientation == .reversed)] at hqc
          injection hqc with hqc2
          injection hqc2 with hqcq hqck
          split at h
          · cases h
          case h_2 core hcm =>
            split at h
            · cases h
            case h_2 essence hes =>
              split at h
              · cases h
              case h_2 ckws hkw =>
                injection h with h2
                injection h2 with hci hraw
                subst hci
                exact ⟨hqcq.symm, hqck.symm⟩

theorem assembleCardPair_ok_qc_absent (deck : Deck) (spread : SpreadDefinition)
    (q : QuestionType) (dc : DrawnCard) (ci : CardInterpretation) (raw : JValue)
    (card : TarotCard) (fs : List (String × JValue))
    (hq : q ≠ QuestionType.general)
    (hcard : deckGet deck dc.card_id = some card)
    (hfs : jLookupD card.data "question_contexts" (.vObj []) = .vObj fs)
    (habs : jLookup fs (questionTypeValue q) = none)
    (h : assembleCardPair deck spread (some q) dc = .ok (ci, raw)) :
    ci.question_context = some (JValue.vStr "") ∧
    ci.question_keywords = JValue.vArr [] := by
  have hgq : ∀ rvsd, getQuestionContext card.data (questionTypeValue q) rvsd =
      .ok ⟨.vStr "", .vArr [], .vObj []⟩ := by
    intro rvsd
    unfold getQuestionContext
    rw [hfs]
    have h1 : dictGetE (JValue.vObj fs) (questionTypeValue q) (.vObj []) =
        .ok (.vObj []) := by
      simp [dictGetE, jLookupD, habs]
    rw [h1]
    rfl
  have hqc0 : ∀ rvsd, qcPair card (some q) rvsd =
      .ok (some (JValue.vStr ""), JValue.vArr []) := by
    intro rvsd
    simp only [qcPair]
    rw [if_neg (by simp only [beq_iff_eq]; exact hq)]
    rw [hgq rvsd]
  unfold assembleCardPair at h
  split at h
  · cases h
  case h_2 card2 hcard2 =>
    rw [hcard] at hcard2
    injection hcard2 with hcardeq
    subst hcardeq
    split at h
    · cases h
    case h_2 position hpos =>
      split at h
      · cases h
      case h_2 interp hint =>
        split at h
        · cases h
        case h_2 qc qk hqc =>
          rw [hqc0 (dc.orientation == .reversed)] at hqc
          injection hqc with hqc2
          injection hqc2 with hqcq hqck
          split at h
          · cases h
          case h_2 core hcm =>
            split at h
            · cases h
            case h_2 essence hes =>
              split at h
              · cases h
              case h_2 ckws hkw =>
                injection h with h2
                injection h2 with hci hraw
                subst hci
                exact ⟨hqcq.symm, hqck.symm⟩

theorem assemble_ok_parts (deck : Deck) (registry : SpreadRegistryMap)
    (reading : Reading) (qtArg : QTArg) (inc : Bool) (ctx : AssembledContext)
    (h : assemble deck registry reading qtArg inc = .ok ctx) :
    ∃ spread qt cis raws rels,
      spreadLookup registry reading.spread_id = some spread ∧
      normalizeQT qtArg reading = .ok qt ∧
      assembleCards deck spread qt reading.drawn_cards = .ok (cis, raws) ∧
      (if inc then findRelationships deck reading else .ok []) = .ok rels ∧
      ctx = ⟨reading.id, reading.spread_name, reading.question, qt, cis, rels, raws⟩ := by
  unfold assemble at h
  split at h
  · cases h
  case h_2 spread hsp =>
    split at h
    · cases h
    case h_2 qt hn =>
      split at h
      · cases h
      case h_2 cis raws hac =>
        split at h
        · cases h
        case h_2 rels hrl =>
          cases h
          exact ⟨spread, qt, cis, raws, rels, hsp, hn, hac, hrl, rfl⟩

/-! ## Claim theorems -/

/-- C1: in a reading drawing `card_a` and `card_b`, where `card_a` declares
an `amplifies` relationship targeting `card_b` and `card_b` separately
declares a `challenges` relationship targeting `card_a`, the relationship
scan emits only the `amplifies` match declared by the lexicographically
smaller card; the `challenges` relationship declared by `card_b` is dropped,
because a relationship is only emitted while scanning its declaring card and
only when the declaring id is smaller than the target id. -/
theorem C1_scan_drops_larger_declarer :
    findRelationships deckC1 readingC1 = .ok [matchC1] ∧
    matchC1.relationship_type = RelationshipType.amplifies := ⟨rfl, rfl⟩

/-- C2: when every segment of the dotted RAG path resolves and the terminal
node is a mapping, the returned interpretation comes from the orientation
branch and `keywords` entry of that terminal node; when any segment fails to
resolve, the result is exactly the core-meaning fallback. -/
theorem C2_rag_path_resolution (data : List (String × JValue)) (rag : String)
    (rvsd : Bool) :
    (walkPath (jLookupD data "position_interpretations" (.vObj []))
        (pySplitDot rag) = none →
      getInterpretation data rag rvsd = getCoreMeaningFallback data rvsd) ∧
    (∀ fs, walkPath (jLookupD data "position_interpretations" (.vObj []))
        (pySplitDot rag) = some (.vObj fs) →
      getInterpretation data rag rvsd =
        .ok ⟨jLookupD fs (orientKey rvsd) (.vStr ""),
             jLookupD fs "keywords" (.vArr []), .vObj fs⟩) := by
  constructor
  · intro h
    unfold getInterpretation
    rw [h]
  · intro fs h
    unfold getInterpretation
    rw [h]

/-- C2 witness: on concrete data the resolved path returns the terminal
branch and a missing path returns the fallback. -/
theorem C2_rag_path_resolution_witness :
    getInterpretation dataC2 "temporal_positions.past" false =
      .ok ⟨.vStr "Past upright", .vArr [.vStr "past-k"], .vObj pastNodeFields⟩ ∧
    getInterpretation dataC2 "missing.path" true =
      getCoreMeaningFallback dataC2 true :=
  ⟨(C2_rag_path_resolution dataC2 "temporal_positions.past" false).2
      pastNodeFields rfl,
   (C2_rag_path_resolution dataC2 "missing.path" true).1 rfl⟩

/-- C3 counterexample: on a card whose RAG path resolves to a mapping that
lacks the requested orientation entry, `get_interpretation` does not return
the core-meaning fallback (it returns an empty interpretation instead), so
the claim fails for that malformed-mapping case. -/
theorem C3_counterexample :
    getInterpretation dataC3 "p" false ≠ getCoreMeaningFallback dataC3 false := by
  intro hcontra
  have h1 : getInterpretation dataC3 "p" false =
      .ok ⟨.vStr "", .vArr [], .vObj []⟩ := rfl
  have h2 : getCoreMeaningFallback dataC3 false =
      .ok ⟨.vStr "CORE", .vArr [.vStr "k"],
           .vObj [("essence", .vStr "CORE"), ("keywords", .vArr [.vStr "k"])]⟩ := rfl
  rw [h1, h2] at hcontra
  injection hcontra with h3
  have h4 := congrArg InterpResult.interpretation h3
  simp at h4

/-- C3 (amended): when the walk of the dotted path completes but the terminal
node is not a mapping at all, the resolver returns the core-meaning fallback,
the same result as for a missing path segment; a terminal mapping that merely
lacks the orientation entry instead yields an empty interpretation text. -/
theorem C3_nonmapping_terminal (data : List (String × JValue)) (rag : String)
    (rvsd : Bool) (t : JValue)
    (hw : walkPath (jLookupD data "position_interpretations" (.vObj []))
        (pySplitDot rag) = some t)
    (ht : jIsObj t = false) :
    getInterpretation data rag rvsd = getCoreMeaningFallback data rvsd := by
  unfold getInterpretation
  rw [hw]
  cases t with
  | vObj fs => simp [jIsObj] at ht
  | vNull => rfl
  | vBool b => rfl
  | vNum n => rfl
  | vStr s => rfl
  | vArr xs => rfl

/-- C3 witness: a path resolving to a bare string falls back to core
meanings. -/
theorem C3_nonmapping_terminal_witness :
    getInterpretation dataC3W "p" false = getCoreMeaningFallback dataC3W false :=
  C3_nonmapping_terminal dataC3W "p" false (.vStr "oops") rfl rfl

/-- C5: a successful `assemble` yields exactly one `CardInterpretation` per
drawn card, in drawn order, and the i-th interpretation copies the card id,
card name, position index and orientation of the i-th drawn card. -/
theorem C5_order_preserved (deck : Deck) (registry : SpreadRegistryMap)
    (reading : Reading) (qtArg : QTArg) (inc : Bool) (ctx : AssembledContext)
    (h : assemble deck registry reading qtArg inc = .ok ctx) :
    ctx.card_interpretations.length = reading.drawn_cards.length ∧
    ∀ (i : Nat) (h1 : i < reading.drawn_cards.length)
      (h2 : i < ctx.card_interpretations.length),
      (ctx.card_interpretations.get ⟨i, h2⟩).card_id =
        (reading.drawn_cards.get ⟨i, h1⟩).card_id ∧
      (ctx.card_interpretations.get ⟨i, h2⟩).card_name =
        (reading.drawn_cards.get ⟨i, h1⟩).card_name ∧
      (ctx.card_interpretations.get ⟨i, h2⟩).position_index =
        (reading.drawn_cards.get ⟨i, h1⟩).position_index ∧
      (ctx.card_interpretations.get ⟨i, h2⟩).orientation =
        (reading.drawn_cards.get ⟨i, h1⟩).orientation := by
  obtain ⟨spread, qt, cis, raws, rels, hsp, hn, hac, hrl, rfl⟩ :=
    assemble_ok_parts deck registry reading qtArg inc ctx h
  dsimp only
  constructor
  · exact assembleCards_ok_length deck spread qt reading.drawn_cards cis raws hac
  · intro i h1 h2
    obtain ⟨raw, hp⟩ :=
      assembleCards_ok_get deck spread qt reading.drawn_cards cis raws hac i h1 h2
    obtain ⟨ha, hb, hc, hd, _⟩ :=
      assembleCardPair_ok_fields deck spread qt _ _ _ hp
    exact ⟨ha, hb, hc, hd⟩

/-- C5 witness: on a concrete one-card reading the output has one
interpretation per drawn card. -/
theorem C5_order_preserved_witness :
    (exOk (assemble deckW5 registryOne readingW5 QTArg.qtNone true)).card_interpretations.length =
      readingW5.drawn_cards.length :=
  (C5_order_preserved deckW5 registryOne readingW5 QTArg.qtNone true
    (exOk (assemble deckW5 registryOne readingW5 QTArg.qtNone true)) rfl).1

/-- C6 counterexample: a drawn card whose `position_index` is `-1` is not a
valid in-range index, yet `assemble` succeeds, because Python list indexing
resolves negative indices from the end of the list. -/
theorem C6_counterexample :
    resultIsOk (assemble deckW5 registryOne readingC6 QTArg.qtNone true) = true ∧
    dcC6.position_index < 0 := ⟨rfl, by decide⟩

/-- C6 (amended): every `assemble` call either returns a complete
`AssembledContext` (one interpretation per drawn card, every drawn position
index within the Python index range of the spread) or fails fast with an
error; there is no partial-success return value.  A `position_index` outside
the Python range (at least `len` or below `-len`) therefore always fails,
while a negative index within range resolves from the end and succeeds. -/
theorem C6_complete_or_error (deck : Deck) (registry : SpreadRegistryMap)
    (reading : Reading) (qtArg : QTArg) (inc : Bool) :
    (∃ ctx, assemble deck registry reading qtArg inc = .ok ctx ∧
      ctx.card_interpretations.length = reading.drawn_cards.length ∧
      ∃ spread, spreadLookup registry reading.spread_id = some spread ∧
        ∀ dc ∈ reading.drawn_cards,
          (pyIndex spread.positions dc.position_index).isSome = true) ∨
    (∃ e, assemble deck registry reading qtArg inc = .error e) := by
  cases hres : assemble deck registry reading qtArg inc with
  | error e => exact Or.inr ⟨e, rfl⟩
  | ok ctx =>
    left
    obtain ⟨spread, qt, cis, raws, rels, hsp, hn, hac, hrl, rfl⟩ :=
      assemble_ok_parts deck registry reading qtArg inc ctx hres
    refine ⟨_, rfl, ?_, spread, hsp, ?_⟩
    · exact assembleCards_ok_length deck spread qt reading.drawn_cards cis raws hac
    · intro dc hdc
      obtain ⟨ci, raw, hp⟩ :=
        assembleCards_ok_dc deck spread qt reading.drawn_cards cis raws hac dc hdc
      exact (assembleCardPair_ok_fields deck spread qt dc ci raw hp).2.2.2.2

/-- C8: assembly is deterministic: two calls with equal deck state, registry,
reading, category argument and relationship flag return structurally equal
results. -/
theorem C8_deterministic (d₁ d₂ : Deck) (r₁ r₂ : SpreadRegistryMap)
    (g₁ g₂ : Reading) (q₁ q₂ : QTArg) (i₁ i₂ : Bool)
    (hd : d₁ = d₂) (hr : r₁ = r₂) (hg : g₁ = g₂) (hq : q₁ = q₂) (hi : i₁ = i₂) :
    assemble d₁ r₁ g₁ q₁ i₁ = assemble d₂ r₂ g₂ q₂ i₂ := by
  subst hd hr hg hq hi
  rfl

/-- C8 witness: the determinism theorem applied to a concrete call. -/
theorem C8_deterministic_witness :
    assemble deckW5 registryOne readingW5 QTArg.qtNone true =
      assemble deckW5 registryOne readingW5 QTArg.qtNone true :=
  C8_deterministic deckW5 deckW5 registryOne registryOne readingW5 readingW5
    QTArg.qtNone QTArg.qtNone true true rfl rfl rfl rfl rfl

/-- C9: no relationship match in a successful `assemble` output carries an
interpretation text beginning with the placeholder sentinel
`"[TO BE WRITTEN"`. -/
theorem C9_no_placeholder (deck : Deck) (registry : SpreadRegistryMap)
    (reading : Reading) (qtArg : QTArg) (inc : Bool) (ctx : AssembledContext)
    (h : assemble deck registry reading qtArg inc = .ok ctx) :
    ∀ m ∈ ctx.relationships, ∀ s, m.interpretation = JValue.vStr s →
      pyStartsWith s "[TO BE WRITTEN" = false := by
  obtain ⟨spread, qt, cis, raws, rels, hsp, hn, hac, hrl, rfl⟩ :=
    assemble_ok_parts deck registry reading qtArg inc ctx h
  dsimp only
  intro m hm s hs
  cases hinc : inc with
  | true =>
    rw [hinc] at hrl
    have hrl2 : findRelationships deck reading = .ok rels := by simpa using hrl
    obtain ⟨dc, _, hf⟩ := findRelationships_ok_facts deck reading rels hrl2 m hm
    obtain ⟨_, _, _, _, s2, hs2, _, hps⟩ := hf
    rw [hs] at hs2
    injection hs2 with he
    subst he
    exact hps
  | false =>
    rw [hinc] at hrl
    have he : ([] : List CardRelationshipMatch) = rels := by simpa using hrl
    rw [← he] at hm
    simp at hm

/-- C9 witness: the authored interpretation text surfaced for the concrete
reading does not begin with the placeholder sentinel. -/
theorem C9_no_placeholder_witness :
    pyStartsWith "A genuine combination." "[TO BE WRITTEN" = false :=
  C9_no_placeholder deckW9 registryOne readingW9 QTArg.qtNone true
    (exOk (assemble deckW9 registryOne readingW9 QTArg.qtNone true)) rfl
    ((exOk (assemble deckW9 registryOne readingW9 QTArg.qtNone true)).relationships.getD 0 junkMatch)
    (List.mem_cons_self _ _) "A genuine combination." rfl

/-- C10 counterexample: with an unknown spread id and an unrecognized
category string, `assemble` raises the spread-lookup `KeyError`, not a
`ValueError`, because the spread lookup precedes category normalization. -/
theorem C10_counterexample :
    assemble [] [] readingC10 (QTArg.qtStr "romance") true =
      .error (.keyErrorSpread "missing_spread") ∧
    PyError.keyErrorSpread "missing_spread" ≠
      PyError.valueErrorQuestionType "romance" := ⟨rfl, by decide⟩

/-- C10 (amended): when the spread lookup succeeds, an unrecognized category
string makes `assemble` raise `ValueError` during category normalization,
before any card is processed (the error does not depend on the deck or the
drawn cards). -/
theorem C10_bad_category_rejected (deck : Deck) (registry : SpreadRegistryMap)
    (reading : Reading) (s : String) (inc : Bool) (spread : SpreadDefinition)
    (hsp : spreadLookup registry reading.spread_id = some spread)
    (hbad : questionTypeOfString s = none) :
    assemble deck registry reading (QTArg.qtStr s) inc =
      .error (.valueErrorQuestionType s) := by
  unfold assemble
  rw [hsp]
  have hn : normalizeQT (QTArg.qtStr s) reading =
      .error (.valueErrorQuestionType s) := by
    simp only [normalizeQT]
    rw [hbad]
  rw [hn]

/-- C10 witness: the amended theorem applied to a concrete registry and the
string `"romance"`. -/
theorem C10_bad_category_rejected_witness :
    assemble deckW5 registryOne readingW5 (QTArg.qtStr "romance") true =
      .error (.valueErrorQuestionType "romance") :=
  C10_bad_category_rejected deckW5 registryOne readingW5 "romance" true
    spreadOnePos rfl rfl

theorem findRel_pair_count_le_one_of_lt (deck : Deck) (reading : Reading)
    (ms : List CardRelationshipMatch) (a b : String) (t : RelationshipType)
    (hab : pyStrLt a b = true)
    (hnd : nodupB (reading.drawn_cards.map (fun dc => dc.card_id)) = true)
    (hwf : deckAllWf deck = true)
    (hok : findRelationships deck reading = .ok ms) :
    ms.countP (fun m =>
      ((m.card1_id == a && m.card2_id == b) || (m.card1_id == b && m.card2_id == a))
        && (m.relationship_type == t)) ≤ 1 := by
  unfold findRelationships at hok
  refine collectE_countP_le_one _ _ (fun dc => dc.card_id == a) _ _ hok ?_ ?_ ?_
  · exact countP_beq_le_one_of_nodupB (fun dc => dc.card_id) a
      reading.drawn_cards hnd
  · intro dc _ xs hxs hqa
    rw [List.countP_eq_zero]
    intro m hm hpm
    obtain ⟨hc1, _, hlt, hne, _⟩ := scanCard_ok deck _ dc xs hxs m hm
    simp only [Bool.and_eq_true, Bool.or_eq_true, beq_iff_eq] at hpm
    rcases hpm.1 with ⟨hx, _⟩ | ⟨hx, hy⟩
    · rw [hc1] at hx
      simp only [beq_eq_false_iff_ne] at hqa
      exact hqa hx
    · have hba := pyStrLt_asymm a b hab
      rw [hx, hy] at hlt
      rw [hba] at hlt
      exact Bool.false_ne_true hlt
  · intro dc _ xs hxs
    unfold scanCard at hxs
    split at hxs
    · cases hxs
    case h_2 card hcard =>
      split at hxs
      case h_2 => cases hxs
      case h_1 relFields hrf =>
        have hwfc := deckGet_wf deck dc.card_id card hwf hcard
        unfold wfRels at hwfc
        rw [hrf] at hwfc
        rw [Bool.and_eq_true] at hwfc
        obtain ⟨hnk, hat⟩ := hwfc
        refine collectE_countP_le_one _ _ (fun te => te.1 == relTypeValue t) _ _ hxs ?_ ?_ ?_
        · exact countP_beq_le_one_of_nodupB Prod.fst (relTypeValue t) relFields hnk
        · intro te hte zs hzs hkey
          rw [List.countP_eq_zero]
          intro m hm hpm
          obtain ⟨_, hty2⟩ := scanRelTypeEntry_ok deck _ dc te zs hzs m hm
          simp only [Bool.and_eq_true, beq_iff_eq] at hpm
          rw [hpm.2] at hty2
          simp only [beq_eq_false_iff_ne] at hkey
          exact hkey (relTypeOfString_eq_value te.1 t hty2)
        · intro te hte zs hzs
          unfold scanRelTypeEntry at hzs
          split at hzs
          case h_1 =>
            cases hzs
            simp
          case h_2 ty hty =>
            split at hzs
            case h_2 => cases hzs
            case h_1 targets htg =>
              have htwf := List.all_eq_true.mp hat te hte
              unfold wfTargets at htwf
              rw [htg] at htwf
              refine collectE_countP_le_one _ _ (fun en => en.1 == b) _ _ hzs ?_ ?_ ?_
              · exact countP_beq_le_one_of_nodupB Prod.fst b targets htwf
              · intro en hen ws hws hkey
                rw [List.countP_eq_zero]
                intro m hm hpm
                obtain ⟨hf, hc2, _⟩ := (scanRelEntry_ok deck _ dc ty en ws hws).2 m hm
                obtain ⟨hc1, _, hlt, hne, _⟩ := hf
                simp only [Bool.and_eq_true, Bool.or_eq_true, beq_iff_eq] at hpm
                rcases hpm.1 with ⟨_, hy⟩ | ⟨hx, hy⟩
                · rw [hc2] at hy
                  simp only [beq_eq_false_iff_ne] at hkey
                  exact hkey hy
                · have hba := pyStrLt_asymm a b hab
                  rw [hx, hy] at hlt
                  rw [hba] at hlt
                  exact Bool.false_ne_true hlt
              · intro en hen ws hws
                exact le_trans (List.countP_le_length _)
                  (scanRelEntry_ok deck _ dc ty en ws hws).1

/-- C4 counterexample: drawing `card_a` twice makes the scan emit the same
`(card_a, card_b, amplifies)` match twice, once per occurrence of the
declaring card, so an unordered pair can appear more than once per
relationship type. -/
theorem C4_counterexample :
    findRelationships deckC1 readingC4 = .ok [matchC4, matchC4] ∧
    1 < List.countP (fun m =>
      ((m.card1_id == "card_a" && m.card2_id == "card_b") ||
        (m.card1_id == "card_b" && m.card2_id == "card_a")) &&
      (m.relationship_type == RelationshipType.amplifies))
      [matchC4, matchC4] :=
  ⟨rfl, by decide⟩

/-- C4 (amended): for every reading whose drawn card ids are pairwise
distinct (and well-formed dict-shaped relationship data, as every Python
dict is), the relationship scan emits each unordered pair of card ids at
most once per relationship type; a card id drawn several times instead
re-emits its declared matches once per occurrence. -/
theorem C4_pair_at_most_once (deck : Deck) (reading : Reading)
    (ms : List CardRelationshipMatch) (x y : String) (t : RelationshipType)
    (hnd : nodupB (reading.drawn_cards.map (fun dc => dc.card_id)) = true)
    (hwf : deckAllWf deck = true)
    (hok : findRelationships deck reading = .ok ms) :
    ms.countP (fun m =>
      ((m.card1_id == x && m.card2_id == y) || (m.card1_id == y && m.card2_id == x))
        && (m.relationship_type == t)) ≤ 1 := by
  by_cases hxy : pyStrLt x y = true
  · exact findRel_pair_count_le_one_of_lt deck reading ms x y t hxy hnd hwf hok
  · by_cases hyx : pyStrLt y x = true
    · have h1 := findRel_pair_count_le_one_of_lt deck reading ms y x t hyx hnd hwf hok
      have hcongr : ms.countP (fun m =>
          ((m.card1_id == x && m.card2_id == y) || (m.card1_id == y && m.card2_id == x))
            && (m.relationship_type == t)) =
          ms.countP (fun m =>
          ((m.card1_id == y && m.card2_id == x) || (m.card1_id == x && m.card2_id == y))
            && (m.relationship_type == t)) := by
        apply List.countP_congr
        intro m _
        rw [Bool.or_comm]
      rw [hcongr]
      exact h1
    · have h0 : ms.countP (fun m =>
          ((m.card1_id == x && m.card2_id == y) || (m.card1_id == y && m.card2_id == x))
            && (m.relationship_type == t)) = 0 := by
        rw [List.countP_eq_zero]
        intro m hm hpm
        obtain ⟨dc, _, hf⟩ := findRelationships_ok_facts deck reading ms hok m hm
        obtain ⟨_, _, hlt, _, _⟩ := hf
        simp only [Bool.and_eq_true, Bool.or_eq_true, beq_iff_eq] at hpm
        rcases hpm.1 with ⟨hx, hy⟩ | ⟨hx, hy⟩
        · rw [hx, hy] at hlt
          exact hxy hlt
        · rw [hx, hy] at hlt
          exact hyx hlt
      omega

/-- C4 witness: the amended theorem applied to the duplicate-free reading of
`card_a` and `card_b`. -/
theorem C4_pair_at_most_once_witness :
    List.countP (fun m =>
      ((m.card1_id == "card_a" && m.card2_id == "card_b") ||
        (m.card1_id == "card_b" && m.card2_id == "card_a")) &&
      (m.relationship_type == RelationshipType.amplifies))
      (exOkRels (findRelationships deckC1 readingC1)) ≤ 1 :=
  C4_pair_at_most_once deckC1 readingC1
    (exOkRels (findRelationships deckC1 readingC1))
    "card_a" "card_b" RelationshipType.amplifies rfl rfl rfl

/-- C7: when the effective question category is unset or `general`, every
output interpretation has an unset question context and empty question
keywords; when a non-`general` category is active but absent from the
question-context tree of a card, that card gets the empty-string context and
empty keywords, with no fallback to core meaning. -/
theorem C7_question_context (deck : Deck) (registry : SpreadRegistryMap)
    (reading : Reading) (qtArg : QTArg) (inc : Bool) (ctx : AssembledContext)
    (eqt : Option QuestionType)
    (h : assemble deck registry reading qtArg inc = .ok ctx)
    (hn : normalizeQT qtArg reading = .ok eqt) :
    ((eqt = none ∨ eqt = some QuestionType.general) →
      ∀ ci ∈ ctx.card_interpretations,
        ci.question_context = none ∧ ci.question_keywords = JValue.vArr []) ∧
    (∀ (q : QuestionType) (card : TarotCard) (fs : List (String × JValue))
      (i : Nat) (h1 : i < reading.drawn_cards.length)
      (h2 : i < ctx.card_interpretations.length),
      eqt = some q → q ≠ QuestionType.general →
      deckGet deck (reading.drawn_cards.get ⟨i, h1⟩).card_id = some card →
      jLookupD card.data "question_contexts" (.vObj []) = .vObj fs →
      jLookup fs (questionTypeValue q) = none →
      (ctx.card_interpretations.get ⟨i, h2⟩).question_context = some (JValue.vStr "") ∧
      (ctx.card_interpretations.get ⟨i, h2⟩).question_keywords = JValue.vArr []) := by
  obtain ⟨spread, qt, cis, raws, rels, hsp, hn2, hac, hrl, rfl⟩ :=
    assemble_ok_parts deck registry reading qtArg inc ctx h
  rw [hn] at hn2
  injection hn2 with hqe
  subst hqe
  dsimp only
  constructor
  · intro hgen ci hci
    obtain ⟨dc, _, raw, hp⟩ :=
      assembleCards_ok_mem deck spread eqt reading.drawn_cards cis raws hac ci hci
    exact assembleCardPair_ok_qc_none deck spread eqt dc ci raw hp hgen
  · intro q card fs i h1 h2 heq hqg hcard hfs habs
    subst heq
    obtain ⟨raw, hp⟩ :=
      assembleCards_ok_get deck spread (some q) reading.drawn_cards cis raws hac i h1 h2
    exact assembleCardPair_ok_qc_absent deck spread q _ _ raw card fs
      hqg hcard hfs habs hp

/-- C7 witness: with the `general` category active and a card carrying a
`general` bucket, the output context is unset; with `love` active and absent
from the card, the output context is the empty string. -/
theorem C7_question_context_witness :
    ((exOk (assemble deckW7a registryOne readingW5
        (QTArg.qtEnum QuestionType.general) true)).card_interpretations.getD 0
        junkCI).question_context = none ∧
    ((exOk (assemble deckW7b registryOne readingW7b
        (QTArg.qtEnum QuestionType.love) true)).card_interpretations.getD 0
        junkCI).question_context = some (JValue.vStr "") :=
  ⟨((C7_question_context deckW7a registryOne readingW5
      (QTArg.qtEnum QuestionType.general) true
      (exOk (assemble deckW7a registryOne readingW5
        (QTArg.qtEnum QuestionType.general) true))
      (some QuestionType.general) rfl rfl).1 (Or.inr rfl) _
      (List.mem_cons_self _ _)).1,
   ((C7_question_context deckW7b registryOne readingW7b
      (QTArg.qtEnum QuestionType.love) true
      (exOk (assemble deckW7b registryOne readingW7b
        (QTArg.qtEnum QuestionType.love) true))
      (some QuestionType.love) rfl rfl).2 QuestionType.love cardW7b fsW7b 0
      (Nat.succ_pos 0) (Nat.succ_pos 0) rfl (by decide) rfl rfl rfl).1⟩

end Arcanite
